import Mathlib

/-!
Verification of the slack-signal core: a shallow embedding of the envelope
parser, deduplicator, event bus and fan-out broadcaster, with theorems about
the behaviours documented in the specification.
-/

namespace SlackSignal

mutual

/-- Model of a JavaScript runtime value: `undefined`, `null`, booleans,
numbers (modelled as integers), strings, and objects as ordered field lists. -/
inductive JSVal where
  | undefined : JSVal
  | null : JSVal
  | bool : Bool → JSVal
  | num : Int → JSVal
  | str : String → JSVal
  | obj : JSFields → JSVal

/-- Ordered field list of a JavaScript object. -/
inductive JSFields where
  | nil : JSFields
  | cons : String → JSVal → JSFields → JSFields

end

deriving instance DecidableEq for JSVal
deriving instance DecidableEq for JSFields
deriving instance Repr for JSVal
deriving instance Repr for JSFields

/-- Build a field list from a Lean list of pairs. -/
def JSFields.ofList : List (String × JSVal) → JSFields
  | [] => .nil
  | (k, v) :: rest => .cons k v (JSFields.ofList rest)

/-- Object literal from a list of pairs. -/
def jsObj (fs : List (String × JSVal)) : JSVal :=
  .obj (JSFields.ofList fs)

/-- JavaScript truthiness: `undefined`, `null`, `false`, `0` and `""` are
falsy; every object is truthy. -/
def truthy : JSVal → Bool
  | .undefined => false
  | .null => false
  | .bool b => b
  | .num n => n != 0
  | .str s => s != ""
  | .obj _ => true

/-- A value is nullish when it is `null` or `undefined`. -/
def isNullish : JSVal → Bool
  | .undefined => true
  | .null => true
  | _ => false

/-- The nullish-coalescing operator `a ?? b`. -/
def jsNullish (a b : JSVal) : JSVal :=
  if isNullish a then b else a

/-- First binding of a key in an object's field list. -/
def lookupField : JSFields → String → Option JSVal
  | .nil, _ => none
  | .cons k v rest, key => if k = key then some v else lookupField rest key

/-- Optional-chained property access `a?.k`: `undefined` on nullish or
primitive receivers, the field value (or `undefined`) on objects. -/
def optProp : JSVal → String → JSVal
  | .obj fs, k => (lookupField fs k).getD .undefined
  | _, _ => .undefined

/-- Whether a field list carries a key. -/
def hasField : JSFields → String → Bool
  | .nil, _ => false
  | .cons k _ rest, key => decide (k = key) || hasField rest key

/-- Whether the receiver is an object carrying the field at all. -/
def hasProp : JSVal → String → Bool
  | .obj fs, k => hasField fs k
  | _, _ => false

deriving instance DecidableEq for Except

/-- The runtime error raised by property access on `null`/`undefined`. -/
inductive JsErr where
  | typeError : JsErr
deriving DecidableEq, Repr

/-- Plain property access `a.k`: a `TypeError` on nullish receivers,
otherwise as `optProp`. -/
def getProp (v : JSVal) (k : String) : Except JsErr JSVal :=
  if isNullish v then .error .typeError else .ok (optProp v k)

/-- `SlackDMEvent` from `src/srs/core/events.ts`: a new-message event. The
`type` field is the literal the code writes; every optional field is a JS
value, `undefined` when the source object literal leaves it out. -/
structure SlackDMEvent where
  type : String
  subtype : JSVal
  user : JSVal
  text : JSVal
  channel : JSVal
  ts : JSVal
  envelopeId : JSVal
  receivedAt : JSVal
deriving DecidableEq, Repr

/-- `SlackReadEvent` from `src/srs/core/events.ts`: a read-cursor event. -/
structure SlackReadEvent where
  type : String
  channel : JSVal
  ts : JSVal
  envelopeId : JSVal
  receivedAt : JSVal
deriving DecidableEq, Repr

/-- Result of `parseEventObject`: a DM event or a read event. -/
inductive ParsedEvent where
  | dm : SlackDMEvent → ParsedEvent
  | read : SlackReadEvent → ParsedEvent
deriving DecidableEq, Repr

/-- Branch dispatch of `parseEventObject` once `event` passed the truthiness
guard (so plain field access cannot throw and is modelled with `optProp`):
`message` with falsy `subtype` builds the DM event verbatim; `im_marked` or
`channel_marked` builds the read event with canonical type `im_marked`;
anything else is `null`. -/
def parseWithEvent (event envelopeId : JSVal) : Option ParsedEvent :=
  if optProp event "type" = .str "message" ∧ truthy (optProp event "subtype") = false then
    some (.dm ⟨"message", .undefined, optProp event "user", optProp event "text",
      optProp event "channel", optProp event "ts", envelopeId, .undefined⟩)
  else if optProp event "type" = .str "im_marked" ∨ optProp event "type" = .str "channel_marked" then
    some (.read ⟨"im_marked", optProp event "channel", optProp event "ts", envelopeId, .undefined⟩)
  else
    none

/-- `parseEventObject` after its `inner` local is computed: reads
`inner.event`, applies the `?? inner` fallback, returns `null` on a falsy
event or falsy `event.type`, computes `inner?.envelope_id ?? inner?.event_id`,
then dispatches on the type. -/
def parseFromInner (inner : JSVal) : Except JsErr (Option ParsedEvent) :=
  match getProp inner "event" with
  | .error e => .error e
  | .ok ev =>
    let event := jsNullish ev inner
    if truthy event = false then .ok none
    else
      match getProp event "type" with
      | .error e => .error e
      | .ok ty =>
        if truthy ty = false then .ok none
        else
          let envelopeId := jsNullish (optProp inner "envelope_id") (optProp inner "event_id")
          .ok (parseWithEvent event envelopeId)

/-- `SlackSocketModeClient.parseEventObject` from
`src/srs/clients/slackClient.ts`: `const inner = obj.payload ?? obj` (a plain
property access, so it throws on a nullish `obj`), then the remainder of the
parse on `inner`. -/
def parseEventObject (obj : JSVal) : Except JsErr (Option ParsedEvent) :=
  match getProp obj "payload" with
  | .error e => .error e
  | .ok p => parseFromInner (jsNullish p obj)

/-- Total view of the once-unwrapped layer `obj.payload ?? obj`. -/
def viewInner (obj : JSVal) : JSVal :=
  jsNullish (optProp obj "payload") obj

/-- Total view of the inner event `inner.event ?? inner`. -/
def viewEvent (obj : JSVal) : JSVal :=
  jsNullish (optProp (viewInner obj) "event") (viewInner obj)

/-- Total view of the identifier `inner?.envelope_id ?? inner?.event_id`
stored by the parser. -/
def viewEnvId (obj : JSVal) : JSVal :=
  jsNullish (optProp (viewInner obj) "envelope_id") (optProp (viewInner obj) "event_id")

/-- `DEDUPE_TTL_MS` from `SlackSocketModeClient`: five minutes in
milliseconds. -/
def DEDUPE_TTL_MS : Int := 5 * 60 * 1000

/-- The `recentEventIds` map: insertion-ordered identifier to first-seen
timestamp (milliseconds). -/
abbrev DedupMap := List (JSVal × Int)

/-- The prune loop shared by `isDuplicate` and the `ensurePrune` interval
callback: delete every entry with `now - ts > DEDUPE_TTL_MS`. -/
def pruneMap (now : Int) (m : DedupMap) : DedupMap :=
  m.filter (fun kv => !decide (now - kv.2 > DEDUPE_TTL_MS))

/-- `SlackSocketModeClient.isDuplicate`: a falsy id is never a duplicate and
leaves the map untouched; otherwise prune, answer by membership, and record a
fresh id at the current time (`Map.set` appends a new key). -/
def isDuplicate (m : DedupMap) (now : Int) (evtId : JSVal) : Bool × DedupMap :=
  if truthy evtId = false then (false, m)
  else
    let m1 := pruneMap now m
    if m1.any (fun kv => decide (kv.1 = evtId)) then (true, m1)
    else (false, m1 ++ [(evtId, now)])

/-- One observable operation on the dedupe window: an `isDuplicate` call with
some id, or a firing of the `ensurePrune` interval callback. -/
inductive DedupOp where
  | call : JSVal → DedupOp
  | sweep : DedupOp
deriving DecidableEq, Repr

/-- Apply one timed operation to the window. -/
def dedupStep (m : DedupMap) : DedupOp × Int → DedupMap
  | (.call evtId, t) => (isDuplicate m t evtId).2
  | (.sweep, t) => pruneMap t m

/-- Run a timed operation sequence left to right. -/
def dedupRun (m : DedupMap) (ops : List (DedupOp × Int)) : DedupMap :=
  ops.foldl dedupStep m

/-- One event published on the bus by the live `events_api` handler. -/
inductive Emitted where
  | dmReceived : SlackDMEvent → Emitted
  | dmRead : SlackReadEvent → Emitted
deriving DecidableEq, Repr

/-- The envelope identifier of a parsed event. -/
def envIdOf : ParsedEvent → JSVal
  | .dm p => p.envelopeId
  | .read p => p.envelopeId

/-- The identifier `body?.envelope_id ?? body?.event_id` the live handler
feeds into the deduplicator: read from the outermost envelope, before any
unwrapping (unlike the parser's `viewEnvId`). -/
def handlerEnvId (body : JSVal) : JSVal :=
  jsNullish (optProp body "envelope_id") (optProp body "event_id")

/-- The `events_api` handler installed by `SlackSocketModeClient.start`, after
the envelope has been acknowledged: read `body?.envelope_id ?? body?.event_id`,
consult the deduplicator, unwrap `body?.payload ?? body` and `ev?.event ?? ev`
(all optional-chained, so no access here can throw), and dispatch on
`event.type`. `resolveUser` abstracts the `users.info` display-name lookup
applied when `payload.user` and the user web client are both set (the identity
function models a missing client or a failed lookup). The emitted payload, if
any, is returned next to the updated dedupe map. -/
def eventsApiHandler (m : DedupMap) (now : Int) (resolveUser : JSVal → JSVal)
    (body : JSVal) : DedupMap × Option Emitted :=
  let envelopeId := handlerEnvId body
  match isDuplicate m now envelopeId with
  | (true, m1) => (m1, none)
  | (false, m1) =>
    let ev := jsNullish (optProp body "payload") body
    let event := jsNullish (optProp ev "event") ev
    if truthy event = false then (m1, none)
    else if truthy (optProp event "type") = false then (m1, none)
    else if optProp event "type" = .str "message" then
      if truthy (optProp event "subtype") then (m1, none)
      else
        let user := optProp event "user"
        let user1 := if truthy user then resolveUser user else user
        (m1, some (.dmReceived ⟨"message", .undefined, user1, optProp event "text",
          optProp event "channel", optProp event "ts", envelopeId, .undefined⟩))
    else if optProp event "type" = .str "im_marked" ∨
        optProp event "type" = .str "channel_marked" then
      (m1, some (.dmRead ⟨"im_marked", optProp event "channel", optProp event "ts",
        envelopeId, .undefined⟩))
    else (m1, none)

/-- `TypedAppEvents.emitDmReceived` from `src/srs/core/events.ts`: when
`payload.receivedAt` is falsy it is overwritten with the current ISO time,
then the payload is emitted; the returned value is the object every
subscriber observes. -/
def emitDmReceived (nowIso : String) (p : SlackDMEvent) : SlackDMEvent :=
  if truthy p.receivedAt then p else { p with receivedAt := .str nowIso }

/-- `TypedAppEvents.emitDmRead`, same `receivedAt` stamping as
`emitDmReceived`. -/
def emitDmRead (nowIso : String) (p : SlackReadEvent) : SlackReadEvent :=
  if truthy p.receivedAt then p else { p with receivedAt := .str nowIso }

/-- The wire payload type of `src/srs/senders/espSender.ts`; optional fields
are JS values, `undefined` when the constructing object literal leaves them
out. -/
structure Payload where
  type : String
  messageId : JSVal
  fromUserId : JSVal
  fromUserName : JSVal
  text : JSVal
  channel : JSVal
  ts : JSVal
deriving DecidableEq, Repr

/-- The `dm_received` subscription installed by the `EspSender` constructor:
map a DM event to its wire payload. -/
def dmReceivedPayload (p : SlackDMEvent) : Payload :=
  ⟨"dm_received", p.ts, p.user, p.user, p.text, p.channel, p.ts⟩

/-- The `dm_read` subscription installed by the `EspSender` constructor. -/
def dmReadPayload (p : SlackReadEvent) : Payload :=
  ⟨"dm_read", p.ts, .undefined, .undefined, .undefined, p.channel, p.ts⟩

/-- `WebSocket.OPEN`. -/
def WS_OPEN : Int := 1

/-- A downstream connection as `broadcast` sees it: its ready state and
whether the `ws` `send` call raises on it. -/
structure Conn where
  readyState : Int
  sendThrows : Bool
deriving DecidableEq, Repr

/-- The `clients.forEach` body of `EspSender.broadcast`: send to every
connection whose `readyState` is `OPEN`, skipping the rest. The source has no
try/catch inside the loop, so a throwing send propagates out of `forEach` and
aborts the remaining iterations; on success the connections actually sent to
are returned in order. -/
def broadcastLoop : List Conn → Except JsErr (List Conn)
  | [] => .ok []
  | c :: rest =>
    if c.readyState = WS_OPEN then
      if c.sendThrows then .error .typeError
      else
        match broadcastLoop rest with
        | .error e => .error e
        | .ok sent => .ok (c :: sent)
    else broadcastLoop rest

/-- `EspSender.broadcast`: when `start` has not run (or bind failed) `wss` is
unset and the call just logs and returns; otherwise the send loop runs over
the current client set. The payload argument only feeds `JSON.stringify` and
does not influence control flow. -/
def broadcast (wss : Option (List Conn)) (payload : Payload) :
    Except JsErr (List Conn) :=
  match wss with
  | none => .ok []
  | some clients => broadcastLoop clients

end SlackSignal

namespace SlackSignal

/-! ### Supporting lemmas about the JS value model and the parser -/

theorem getProp_not_nullish {v : JSVal} (k : String) (h : isNullish v = false) :
    getProp v k = .ok (optProp v k) := by
  simp [getProp, h]

theorem truthy_not_nullish {v : JSVal} (h : truthy v = true) : isNullish v = false := by
  cases v <;> simp_all [truthy, isNullish]

theorem viewInner_not_nullish {obj : JSVal} (h : isNullish obj = false) :
    isNullish (viewInner obj) = false := by
  unfold viewInner jsNullish
  split
  · exact h
  · next h2 => simpa using h2

theorem viewEvent_nullish {obj : JSVal} (h : isNullish obj = true) :
    viewEvent obj = obj := by
  cases obj <;> simp_all [viewEvent, viewInner, optProp, jsNullish, isNullish]

theorem truthy_of_optProp_str {v : JSVal} {k s : String}
    (h : optProp v k = .str s) : truthy v = true := by
  cases v <;> simp_all [optProp, truthy]

theorem truthy_of_optProp_truthy {v : JSVal} {k : String}
    (h : truthy (optProp v k) = true) : truthy v = true := by
  cases v <;> simp_all [optProp, truthy]

theorem lookupField_eq_none : ∀ {fs : JSFields} {k : String},
    hasField fs k = false → lookupField fs k = none
  | .nil, _, _ => rfl
  | .cons k2 _ rest, k, h => by
    simp only [hasField, Bool.or_eq_false_iff, decide_eq_false_iff_not] at h
    simp [lookupField, h.1, lookupField_eq_none h.2]

theorem optProp_of_hasProp_false {v : JSVal} {k : String} (h : hasProp v k = false) :
    optProp v k = .undefined := by
  cases v <;> simp_all [hasProp, optProp, lookupField_eq_none]

theorem parseEventObject_eq_inner {obj : JSVal} (h : isNullish obj = false) :
    parseEventObject obj = parseFromInner (viewInner obj) := by
  simp [parseEventObject, getProp_not_nullish _ h, viewInner]

theorem parseFromInner_run {inner : JSVal} (hin : isNullish inner = false)
    (hev : truthy (jsNullish (optProp inner "event") inner) = true)
    (hty : truthy (optProp (jsNullish (optProp inner "event") inner) "type") = true) :
    parseFromInner inner =
      .ok (parseWithEvent (jsNullish (optProp inner "event") inner)
        (jsNullish (optProp inner "envelope_id") (optProp inner "event_id"))) := by
  unfold parseFromInner
  rw [getProp_not_nullish _ hin]
  simp only [hev, getProp_not_nullish _ (truthy_not_nullish hev), hty]
  simp

theorem parseFromInner_none {inner : JSVal} (hin : isNullish inner = false)
    (h : truthy (jsNullish (optProp inner "event") inner) = false ∨
      truthy (optProp (jsNullish (optProp inner "event") inner) "type") = false) :
    parseFromInner inner = .ok none := by
  unfold parseFromInner
  rw [getProp_not_nullish _ hin]
  by_cases hev : truthy (jsNullish (optProp inner "event") inner) = true
  · have hty : truthy (optProp (jsNullish (optProp inner "event") inner) "type") = false := by
      rcases h with h | h
      · rw [hev] at h; exact absurd h (by simp)
      · exact h
    simp only [hev, getProp_not_nullish _ (truthy_not_nullish hev), hty]
    simp
  · have hev' : truthy (jsNullish (optProp inner "event") inner) = false := by
      simpa using hev
    simp [hev']

theorem parseEventObject_run {obj : JSVal} (hobj : isNullish obj = false)
    (hev : truthy (viewEvent obj) = true)
    (hty : truthy (optProp (viewEvent obj) "type") = true) :
    parseEventObject obj = .ok (parseWithEvent (viewEvent obj) (viewEnvId obj)) := by
  rw [parseEventObject_eq_inner hobj]
  exact parseFromInner_run (viewInner_not_nullish hobj) hev hty

theorem parseEventObject_none {obj : JSVal} (hobj : isNullish obj = false)
    (h : truthy (viewEvent obj) = false ∨
      truthy (optProp (viewEvent obj) "type") = false) :
    parseEventObject obj = .ok none := by
  rw [parseEventObject_eq_inner hobj]
  exact parseFromInner_none (viewInner_not_nullish hobj) h

theorem parseFromInner_norm {inner : JSVal} (hin : isNullish inner = false) :
    parseFromInner inner =
      if truthy (jsNullish (optProp inner "event") inner) = false then .ok none
      else if truthy (optProp (jsNullish (optProp inner "event") inner) "type") = false then
        .ok none
      else .ok (parseWithEvent (jsNullish (optProp inner "event") inner)
        (jsNullish (optProp inner "envelope_id") (optProp inner "event_id"))) := by
  by_cases hev : truthy (jsNullish (optProp inner "event") inner) = true
  · by_cases hty : truthy (optProp (jsNullish (optProp inner "event") inner) "type") = true
    · rw [parseFromInner_run hin hev hty]
      simp [hev, hty]
    · have hty2 : truthy (optProp (jsNullish (optProp inner "event") inner) "type") = false := by
        simpa using hty
      rw [parseFromInner_none hin (Or.inr hty2)]
      simp [hev, hty2]
  · have hev2 : truthy (jsNullish (optProp inner "event") inner) = false := by
      simpa using hev
    rw [parseFromInner_none hin (Or.inl hev2)]
    simp [hev2]

theorem parseEventObject_nullish {obj : JSVal} (h : isNullish obj = true) :
    parseEventObject obj = .error .typeError := by
  cases obj <;> simp_all [parseEventObject, getProp, isNullish]

theorem parseWithEvent_envId {event i : JSVal} {ev : ParsedEvent}
    (h : parseWithEvent event i = some ev) : envIdOf ev = i := by
  unfold parseWithEvent at h
  split at h
  · cases h; rfl
  · split at h
    · cases h; rfl
    · cases h

theorem parseFromInner_some_envId {inner : JSVal} {ev : ParsedEvent}
    (hin : isNullish inner = false)
    (hparse : parseFromInner inner = .ok (some ev)) :
    envIdOf ev = jsNullish (optProp inner "envelope_id") (optProp inner "event_id") := by
  unfold parseFromInner at hparse
  split at hparse
  · simp at hparse
  · rename_i ev1 heq
    rw [getProp_not_nullish _ hin] at heq
    injection heq with h1
    subst h1
    simp only [] at hparse
    split at hparse
    · simp at hparse
    · split at hparse
      · rename_i heq2
        rename_i hc _ _
        have hev : truthy (jsNullish (optProp inner "event") inner) = true := by
          simpa using hc
        rw [getProp_not_nullish _ (truthy_not_nullish hev)] at heq2
        simp at heq2
      · split at hparse
        · simp at hparse
        · injection hparse with h2
          exact parseWithEvent_envId h2

theorem parseEventObject_some_envId {obj : JSVal} {ev : ParsedEvent}
    (h : parseEventObject obj = .ok (some ev)) :
    envIdOf ev = viewEnvId obj := by
  by_cases hobj : isNullish obj = true
  · rw [parseEventObject_nullish hobj] at h
    cases h
  · have hobj' : isNullish obj = false := by simpa using hobj
    rw [parseEventObject_eq_inner hobj'] at h
    exact parseFromInner_some_envId (viewInner_not_nullish hobj') h

theorem mem_pruneMap {m : DedupMap} {t : Int} {kv : JSVal × Int} :
    kv ∈ pruneMap t m ↔ kv ∈ m ∧ ¬(t - kv.2 > DEDUPE_TTL_MS) := by
  simp [pruneMap, List.mem_filter]

theorem pruneMap_age {m : DedupMap} {t : Int} {kv : JSVal × Int}
    (h : kv ∈ pruneMap t m) : t - kv.2 ≤ DEDUPE_TTL_MS :=
  not_lt.mp (mem_pruneMap.mp h).2

theorem dedupStep_mem {m : DedupMap} {op : DedupOp × Int} {kv : JSVal × Int}
    (h : kv ∈ dedupStep m op) : kv ∈ m ∨ kv.2 = op.2 := by
  obtain ⟨o, t⟩ := op
  cases o with
  | sweep => exact Or.inl (List.mem_of_mem_filter h)
  | call evtId =>
    simp only [dedupStep, isDuplicate] at h
    by_cases h1 : truthy evtId = false
    · rw [if_pos h1] at h
      exact Or.inl h
    · rw [if_neg h1] at h
      by_cases h2 : (pruneMap t m).any (fun kv => decide (kv.1 = evtId)) = true
      · rw [if_pos h2] at h
        exact Or.inl (List.mem_of_mem_filter h)
      · rw [if_neg h2] at h
        rcases List.mem_append.mp h with hA | hB
        · exact Or.inl (List.mem_of_mem_filter hA)
        · right
          have hkv2 : kv = (evtId, t) := by simpa using hB
          rw [hkv2]

theorem foldl_dedupStep_lower (B : Int) :
    ∀ (ops : List (DedupOp × Int)) (m : DedupMap),
      (∀ kv ∈ m, B ≤ kv.2) → (∀ op ∈ ops, B ≤ op.2) →
      ∀ kv ∈ List.foldl dedupStep m ops, B ≤ kv.2
  | [], _, hm, _, kv, hkv => hm kv hkv
  | op :: rest, m, hm, hops, kv, hkv => by
    refine foldl_dedupStep_lower B rest (dedupStep m op) ?_
      (fun o ho => hops o (List.mem_cons_of_mem _ ho)) kv hkv
    intro kv2 hkv2
    rcases dedupStep_mem hkv2 with h | h
    · exact hm kv2 h
    · rw [h]
      exact hops op (List.mem_cons_self op rest)

/-! ### Claim theorems -/

/-- C1: for every envelope whose innermost event has type `"message"` and no
`subtype` field, `parseEventObject` returns a `MessageReceived` (`SlackDMEvent`)
whose `user`, `text`, `channel` and `ts` fields are exactly the corresponding
fields of the inner event, absent fields staying absent (`undefined`), with no
transformation or validation applied. -/
theorem message_parsed_verbatim (obj : JSVal)
    (hty : optProp (viewEvent obj) "type" = .str "message")
    (hsub : hasProp (viewEvent obj) "subtype" = false) :
    parseEventObject obj = .ok (some (.dm ⟨"message", .undefined,
      optProp (viewEvent obj) "user", optProp (viewEvent obj) "text",
      optProp (viewEvent obj) "channel", optProp (viewEvent obj) "ts",
      viewEnvId obj, .undefined⟩)) := by
  have hobj : isNullish obj = false := by
    by_contra hcon
    have hnull : isNullish obj = true := by simpa using hcon
    rw [viewEvent_nullish hnull] at hty
    cases obj <;> simp_all [optProp, isNullish]
  have hev : truthy (viewEvent obj) = true := truthy_of_optProp_str hty
  have htyT : truthy (optProp (viewEvent obj) "type") = true := by
    rw [hty]; rfl
  rw [parseEventObject_run hobj hev htyT]
  rw [parseWithEvent, if_pos]
  exact ⟨hty, by rw [optProp_of_hasProp_false hsub]; rfl⟩

/-- C1 witness: a concrete payload-wrapped message event with a missing
`text` and `channel` parses to the verbatim DM event. -/
theorem message_parsed_verbatim_witness :
    parseEventObject (jsObj [("payload", jsObj [("event", jsObj
      [("type", .str "message"), ("user", .str "U7"), ("ts", .str "42.1")])])]) =
    .ok (some (.dm ⟨"message", .undefined, .str "U7", .undefined, .undefined,
      .str "42.1", .undefined, .undefined⟩)) :=
  message_parsed_verbatim _ (by decide) (by decide)

/-- C2 counterexample: the claim is false in two places. A `subtype` field
that is present but falsy (the empty string) is not rejected: the parser still
returns a `MessageReceived`, because the source checks `!event.subtype`
(truthiness), not field presence. And an envelope with a missing `type`
because the whole input is `null` does not yield `null`: the access
`obj.payload` throws a `TypeError`. -/
theorem null_on_subtype_refuted :
    parseEventObject (jsObj [("event", jsObj [("type", .str "message"),
        ("subtype", .str ""), ("user", .str "U1")])]) =
      .ok (some (.dm ⟨"message", .undefined, .str "U1", .undefined, .undefined,
        .undefined, .undefined, .undefined⟩)) ∧
    parseEventObject .null = .error .typeError := by
  constructor
  · decide
  · decide

/-- C2 amended: for every non-nullish input (a nullish one makes the
`obj.payload` access throw), `parseEventObject` returns `null` when the
innermost event has type `"message"` together with a truthy `subtype`, or a
truthy type outside the known set `message`/`im_marked`/`channel_marked`, or
a falsy (in particular missing) type; a present-but-falsy `subtype` is not
rejected. -/
theorem non_actionable_yields_null (obj : JSVal) (hobj : isNullish obj = false)
    (h : (optProp (viewEvent obj) "type" = .str "message" ∧
            truthy (optProp (viewEvent obj) "subtype") = true) ∨
         (truthy (optProp (viewEvent obj) "type") = true ∧
            optProp (viewEvent obj) "type" ≠ .str "message" ∧
            optProp (viewEvent obj) "type" ≠ .str "im_marked" ∧
            optProp (viewEvent obj) "type" ≠ .str "channel_marked") ∨
         truthy (optProp (viewEvent obj) "type") = false) :
    parseEventObject obj = .ok none := by
  rcases h with ⟨hty, hsub⟩ | ⟨htyT, hm, hi, hc⟩ | hty
  · have hev : truthy (viewEvent obj) = true := truthy_of_optProp_str hty
    have htyT : truthy (optProp (viewEvent obj) "type") = true := by rw [hty]; rfl
    rw [parseEventObject_run hobj hev htyT]
    rw [parseWithEvent, if_neg, if_neg]
    · rw [hty]
      simp
    · rw [hsub]
      simp
  · have hev : truthy (viewEvent obj) = true := truthy_of_optProp_truthy htyT
    rw [parseEventObject_run hobj hev htyT]
    rw [parseWithEvent, if_neg, if_neg]
    · exact not_or_intro hi hc
    · exact fun hand => hm hand.1
  · exact parseEventObject_none hobj (Or.inr hty)

/-- C2 amended witness: a `reaction_added` event parses to `null`. -/
theorem non_actionable_yields_null_witness :
    parseEventObject (jsObj [("event", jsObj [("type", .str "reaction_added"),
      ("user", .str "U1")])]) = .ok none :=
  non_actionable_yields_null _ (by decide)
    (Or.inr (Or.inl (by refine ⟨by decide, by decide, by decide, by decide⟩)))

/-- C5 counterexample: an `envelope_id` placed on the outermost layer of a
payload-wrapped envelope is not read: the parser takes the identifier from the
layer left after unwrapping `payload`, so the parsed event carries
`envelopeId = undefined` rather than `"e1"`. -/
theorem outer_envelope_id_refuted :
    parseEventObject (jsObj [("envelope_id", .str "e1"),
        ("payload", jsObj [("event", jsObj [("type", .str "message"),
          ("ts", .str "1")])])]) =
      .ok (some (.dm ⟨"message", .undefined, .undefined, .undefined, .undefined,
        .str "1", .undefined, .undefined⟩)) ∧
    parseEventObject (jsObj [("envelope_id", .str "e1"),
        ("payload", jsObj [("event", jsObj [("type", .str "message"),
          ("ts", .str "1")])])]) ≠
      .ok (some (.dm ⟨"message", .undefined, .undefined, .undefined, .undefined,
        .str "1", .str "e1", .undefined⟩)) := by
  constructor
  · decide
  · decide

/-- C5 amended: the payload-wrapped and event-wrapped forms always parse
identically; the bare form parses identically when the inner event object is
non-nullish and carries none of the wrapper or identifier fields (`payload`,
`event`, `envelope_id`, `event_id`); an `envelope_id` on the outermost layer
beside a `payload` wrapper is ignored; and the identifier stored in every
parsed event is `envelope_id ?? event_id` read from the once-unwrapped layer
`obj.payload ?? obj` (which is the outermost layer only when no `payload`
wrapper is present), never from a wrapped inner event. -/
theorem wrapping_invariance :
    (∀ E : JSVal,
      parseEventObject (jsObj [("payload", jsObj [("event", E)])]) =
        parseEventObject (jsObj [("event", E)])) ∧
    (∀ E : JSVal, isNullish E = false →
      optProp E "payload" = .undefined → optProp E "event" = .undefined →
      optProp E "envelope_id" = .undefined → optProp E "event_id" = .undefined →
      parseEventObject (jsObj [("event", E)]) = parseEventObject E) ∧
    (∀ i P : JSVal, isNullish P = false →
      parseEventObject (jsObj [("envelope_id", i), ("payload", P)]) =
        parseEventObject (jsObj [("payload", P)])) ∧
    (∀ (obj : JSVal) (ev : ParsedEvent),
      parseEventObject obj = .ok (some ev) → envIdOf ev = viewEnvId obj) := by
  refine ⟨fun E => rfl, ?_, ?_, fun obj ev h => parseEventObject_some_envId h⟩
  · intro E hE hp hev hid1 hid2
    have hL : parseEventObject (jsObj [("event", E)]) =
        parseFromInner (jsObj [("event", E)]) := rfl
    have hR : parseEventObject E = parseFromInner E := by
      rw [parseEventObject_eq_inner hE]
      unfold viewInner
      rw [hp]
      rfl
    rw [hL, hR, parseFromInner_norm (show isNullish (jsObj [("event", E)]) = false from rfl),
      parseFromInner_norm hE]
    have h0 : optProp (jsObj [("event", E)]) "event" = E := rfl
    rw [h0, hev]
    have h1 : jsNullish E (jsObj [("event", E)]) = E := by
      unfold jsNullish
      rw [hE]
      rfl
    have h2 : jsNullish JSVal.undefined E = E := rfl
    rw [h1, h2]
    have h3 : optProp (jsObj [("event", E)]) "envelope_id" = JSVal.undefined := rfl
    have h4 : optProp (jsObj [("event", E)]) "event_id" = JSVal.undefined := rfl
    rw [h3, h4, hid1, hid2]
  · intro i P hP
    have hL : parseEventObject (jsObj [("envelope_id", i), ("payload", P)]) =
        parseFromInner (jsNullish P (jsObj [("envelope_id", i), ("payload", P)])) := rfl
    have hR : parseEventObject (jsObj [("payload", P)]) =
        parseFromInner (jsNullish P (jsObj [("payload", P)])) := rfl
    rw [hL, hR]
    have h1 : jsNullish P (jsObj [("envelope_id", i), ("payload", P)]) = P := by
      unfold jsNullish
      rw [hP]
      rfl
    have h2 : jsNullish P (jsObj [("payload", P)]) = P := by
      unfold jsNullish
      rw [hP]
      rfl
    rw [h1, h2]

/-- C5 amended witness: the three conjuncts with hypotheses applied at
concrete envelopes; the identifier conjunct is exercised through the
`event_id` fallback. -/
theorem wrapping_invariance_witness :
    (parseEventObject (jsObj [("event", jsObj [("type", .str "message")])]) =
      parseEventObject (jsObj [("type", .str "message")])) ∧
    (parseEventObject (jsObj [("envelope_id", .str "e9"),
        ("payload", jsObj [("event", jsObj [("type", .str "message")])])]) =
      parseEventObject (jsObj [("payload", jsObj [("event",
        jsObj [("type", .str "message")])])])) ∧
    envIdOf (.dm ⟨"message", .undefined, .undefined, .undefined, .undefined,
        .undefined, .str "i1", .undefined⟩) =
      viewEnvId (jsObj [("event_id", .str "i1"),
        ("event", jsObj [("type", .str "message")])]) :=
  ⟨wrapping_invariance.2.1 _ (by decide) (by decide) (by decide) (by decide) (by decide),
    wrapping_invariance.2.2.1 (.str "e9") _ (by decide),
    wrapping_invariance.2.2.2 _ _ (by decide)⟩

/-- C6 counterexample: on scenario A's input the parse is as claimed, but the
broadcast wire payload does not equal the claimed object: the `dm_received`
mapping in the `EspSender` constructor also sets `fromUserName` (to `p.user`),
a field the claimed payload omits. -/
theorem scenario_a_payload_refuted :
    parseEventObject (jsObj [("event", jsObj [("type", .str "message"),
        ("user", .str "U123"), ("text", .str "hello"), ("channel", .str "C456"),
        ("ts", .str "1234.5678")])]) =
      .ok (some (.dm ⟨"message", .undefined, .str "U123", .str "hello",
        .str "C456", .str "1234.5678", .undefined, .undefined⟩)) ∧
    dmReceivedPayload ⟨"message", .undefined, .str "U123", .str "hello",
        .str "C456", .str "1234.5678", .undefined, .undefined⟩ ≠
      ⟨"dm_received", .str "1234.5678", .str "U123", .undefined, .str "hello",
        .str "C456", .str "1234.5678"⟩ := by
  constructor
  · decide
  · decide

/-- C6 amended: scenario A end to end, with the `fromUserName` field the wire
payload actually carries: the input parses to the claimed `MessageReceived`,
and the broadcast payload is the claimed object extended with
`fromUserName = "U123"` (copied from `p.user`). -/
theorem scenario_a_pipeline :
    parseEventObject (jsObj [("event", jsObj [("type", .str "message"),
        ("user", .str "U123"), ("text", .str "hello"), ("channel", .str "C456"),
        ("ts", .str "1234.5678")])]) =
      .ok (some (.dm ⟨"message", .undefined, .str "U123", .str "hello",
        .str "C456", .str "1234.5678", .undefined, .undefined⟩)) ∧
    dmReceivedPayload ⟨"message", .undefined, .str "U123", .str "hello",
        .str "C456", .str "1234.5678", .undefined, .undefined⟩ =
      ⟨"dm_received", .str "1234.5678", .str "U123", .str "U123", .str "hello",
        .str "C456", .str "1234.5678"⟩ := by
  constructor
  · decide
  · decide

/-- C7 counterexample: `parseEventObject` does not terminate without raising
on every input: on `undefined` (and likewise `null`) the very first access
`obj.payload` throws a `TypeError`. -/
theorem parser_throws_on_nullish :
    parseEventObject .undefined = .error .typeError := by decide

/-- C7 amended: for every input other than `null` and `undefined` —
primitives and objects with arbitrarily missing fields included —
`parseEventObject` terminates without raising an error: missing fields
degrade to `undefined` in the output and non-actionable input yields `null`
rather than an exception. -/
theorem parser_total_on_non_nullish (obj : JSVal)
    (hobj : isNullish obj = false) :
    (parseEventObject obj).isOk = true := by
  rw [parseEventObject_eq_inner hobj, parseFromInner_norm (viewInner_not_nullish hobj)]
  split
  · rfl
  · split
    · rfl
    · rfl

/-- C7 amended witness: a primitive number input and an empty object input
both parse without an exception. -/
theorem parser_total_on_non_nullish_witness :
    (parseEventObject (.num 0)).isOk = true ∧
    (parseEventObject (jsObj [])).isOk = true :=
  ⟨parser_total_on_non_nullish _ (by decide),
    parser_total_on_non_nullish _ (by decide)⟩

/-- C10: both the static parser and the live `events_api` handler normalize
the two upstream read-cursor event types `im_marked` and `channel_marked` to
the single canonical type `im_marked`, carrying the inner event's `channel`
and `ts`; for the handler this is shown for envelopes the deduplicator does
not drop. -/
theorem read_events_canonicalized :
    (∀ obj : JSVal,
      (optProp (viewEvent obj) "type" = .str "im_marked" ∨
        optProp (viewEvent obj) "type" = .str "channel_marked") →
      parseEventObject obj = .ok (some (.read ⟨"im_marked",
        optProp (viewEvent obj) "channel", optProp (viewEvent obj) "ts",
        viewEnvId obj, .undefined⟩))) ∧
    (∀ (m : DedupMap) (now : Int) (resolveUser : JSVal → JSVal) (body : JSVal),
      (optProp (viewEvent body) "type" = .str "im_marked" ∨
        optProp (viewEvent body) "type" = .str "channel_marked") →
      (isDuplicate m now (handlerEnvId body)).1 = false →
      (eventsApiHandler m now resolveUser body).2 = some (.dmRead ⟨"im_marked",
        optProp (viewEvent body) "channel", optProp (viewEvent body) "ts",
        handlerEnvId body, .undefined⟩)) := by
  constructor
  · intro obj h
    have hty : truthy (optProp (viewEvent obj) "type") = true := by
      rcases h with h | h <;> rw [h] <;> rfl
    have hev : truthy (viewEvent obj) = true := truthy_of_optProp_truthy hty
    have hobj : isNullish obj = false := by
      by_contra hcon
      have hnull : isNullish obj = true := by simpa using hcon
      rw [viewEvent_nullish hnull] at h
      rcases h with h | h <;> cases obj <;> simp_all [optProp, isNullish]
    have hneg : ¬(optProp (viewEvent obj) "type" = .str "message" ∧
        truthy (optProp (viewEvent obj) "subtype") = false) := by
      intro hand
      rcases h with h | h <;> rw [h] at hand <;> exact absurd hand.1 (by decide)
    rw [parseEventObject_run hobj hev hty, parseWithEvent, if_neg hneg, if_pos h]
  · intro m now resolveUser body h hdup
    have hty : truthy (optProp (viewEvent body) "type") = true := by
      rcases h with h | h <;> rw [h] <;> rfl
    have hev : truthy (viewEvent body) = true := truthy_of_optProp_truthy hty
    rcases hId : isDuplicate m now (handlerEnvId body) with ⟨b, m1⟩
    rw [hId] at hdup
    have hb : b = false := hdup
    subst hb
    have hv1 : jsNullish (optProp body "payload") body = viewInner body := rfl
    have hv2 : jsNullish (optProp (viewInner body) "event") (viewInner body) =
        viewEvent body := rfl
    have c1 : ¬(truthy (viewEvent body) = false) := by simp [hev]
    have c2 : ¬(truthy (optProp (viewEvent body) "type") = false) := by simp [hty]
    have hneg3 : ¬(optProp (viewEvent body) "type" = .str "message") := by
      rcases h with h | h <;> rw [h] <;> decide
    unfold eventsApiHandler
    simp only [hId, hv1, hv2]
    rw [if_neg c1, if_neg c2, if_neg hneg3, if_pos h]

/-- C10 witness: a `channel_marked` envelope through the parser and an
`im_marked` envelope through the handler, both yielding canonical
`im_marked` read events. -/
theorem read_events_canonicalized_witness :
    parseEventObject (jsObj [("event", jsObj [("type", .str "channel_marked"),
        ("channel", .str "C1"), ("ts", .str "7.0")])]) =
      .ok (some (.read ⟨"im_marked", .str "C1", .str "7.0", .undefined,
        .undefined⟩)) ∧
    (eventsApiHandler [] 0 id (jsObj [("envelope_id", .str "e2"),
        ("event", jsObj [("type", .str "im_marked"), ("channel", .str "D1"),
        ("ts", .str "8.0")])])).2 =
      some (.dmRead ⟨"im_marked", .str "D1", .str "8.0", .str "e2",
        .undefined⟩) :=
  ⟨read_events_canonicalized.1 _ (Or.inr (by decide)),
    read_events_canonicalized.2 [] 0 id _ (Or.inl (by decide)) (by decide)⟩

/-- C3: the deduplicator contract: an empty or absent (falsy) id always
returns false and records nothing; the first call with a fresh non-empty id
returns false and records it at the call time; a second call with the same id
within the 5-minute TTL returns true and keeps the recorded first-seen
timestamp unchanged; once more than the TTL has elapsed since first sight,
the id is reported fresh (false) again. -/
theorem dedupe_contract :
    (∀ (m : DedupMap) (t : Int) (evtId : JSVal), truthy evtId = false →
      isDuplicate m t evtId = (false, m)) ∧
    (∀ (m : DedupMap) (t1 : Int) (evtId : JSVal), truthy evtId = true →
      (∀ kv ∈ m, kv.1 ≠ evtId) →
      isDuplicate m t1 evtId = (false, pruneMap t1 m ++ [(evtId, t1)])) ∧
    (∀ (m : DedupMap) (t1 t2 : Int) (evtId : JSVal), truthy evtId = true →
      (∀ kv ∈ m, kv.1 ≠ evtId) → t2 - t1 ≤ DEDUPE_TTL_MS →
      (isDuplicate ((isDuplicate m t1 evtId).2) t2 evtId).1 = true ∧
      (evtId, t1) ∈ (isDuplicate ((isDuplicate m t1 evtId).2) t2 evtId).2) ∧
    (∀ (m : DedupMap) (t1 t2 t3 : Int) (evtId : JSVal), truthy evtId = true →
      (∀ kv ∈ m, kv.1 ≠ evtId) → t2 - t1 ≤ DEDUPE_TTL_MS →
      t3 - t1 > DEDUPE_TTL_MS →
      (isDuplicate ((isDuplicate ((isDuplicate m t1 evtId).2) t2 evtId).2)
        t3 evtId).1 = false) := by
  have part1 : ∀ (m : DedupMap) (t : Int) (evtId : JSVal), truthy evtId = false →
      isDuplicate m t evtId = (false, m) := by
    intro m t evtId h
    simp [isDuplicate, h]
  have part2 : ∀ (m : DedupMap) (t1 : Int) (evtId : JSVal), truthy evtId = true →
      (∀ kv ∈ m, kv.1 ≠ evtId) →
      isDuplicate m t1 evtId = (false, pruneMap t1 m ++ [(evtId, t1)]) := by
    intro m t1 evtId h1 h2
    have hany : ((pruneMap t1 m).any fun kv => decide (kv.1 = evtId)) = false := by
      rw [List.any_eq_false]
      intro kv hkv
      simp [h2 kv (List.mem_of_mem_filter hkv)]
    simp [isDuplicate, h1, hany]
  have call2 : ∀ (m : DedupMap) (t1 t2 : Int) (evtId : JSVal), truthy evtId = true →
      (∀ kv ∈ m, kv.1 ≠ evtId) → t2 - t1 ≤ DEDUPE_TTL_MS →
      isDuplicate ((isDuplicate m t1 evtId).2) t2 evtId =
        (true, pruneMap t2 (pruneMap t1 m ++ [(evtId, t1)])) ∧
      (evtId, t1) ∈ pruneMap t2 (pruneMap t1 m ++ [(evtId, t1)]) := by
    intro m t1 t2 evtId h1 h2 h3
    have hmem : (evtId, t1) ∈ pruneMap t2 (pruneMap t1 m ++ [(evtId, t1)]) :=
      mem_pruneMap.mpr ⟨List.mem_append_right _ (by simp), not_lt.mpr h3⟩
    have hany : ((pruneMap t2 (pruneMap t1 m ++ [(evtId, t1)])).any
        fun kv => decide (kv.1 = evtId)) = true := by
      rw [List.any_eq_true]
      exact ⟨(evtId, t1), hmem, by simp⟩
    refine ⟨?_, hmem⟩
    rw [part2 m t1 evtId h1 h2]
    simp [isDuplicate, h1, hany]
  refine ⟨part1, part2, ?_, ?_⟩
  · intro m t1 t2 evtId h1 h2 h3
    obtain ⟨heq, hmem⟩ := call2 m t1 t2 evtId h1 h2 h3
    rw [heq]
    exact ⟨rfl, hmem⟩
  · intro m t1 t2 t3 evtId h1 h2 h3 h4
    obtain ⟨heq, _⟩ := call2 m t1 t2 evtId h1 h2 h3
    rw [heq]
    have hany3 : ((pruneMap t3 (pruneMap t2 (pruneMap t1 m ++ [(evtId, t1)]))).any
        fun kv => decide (kv.1 = evtId)) = false := by
      rw [List.any_eq_false]
      intro kv hkv
      simp only [decide_eq_true_eq]
      intro hkEq
      obtain ⟨hkv2, hc3⟩ := mem_pruneMap.mp hkv
      obtain ⟨hkv1, _⟩ := mem_pruneMap.mp hkv2
      rcases List.mem_append.mp hkv1 with hA | hB
      · exact h2 kv (List.mem_of_mem_filter hA) hkEq
      · have hkvEq : kv = (evtId, t1) := by simpa using hB
        rw [hkvEq] at hc3
        exact hc3 h4
    simp [isDuplicate, h1, hany3]

/-- C3 witness: a concrete id `"e"` against an empty window at times 0,
300000 (on the TTL boundary, still a duplicate) and 300001 relative to a
fresh sight at 0; and the falsy-id case with the empty string. -/
theorem dedupe_contract_witness :
    isDuplicate [] 5 (.str "") = (false, []) ∧
    isDuplicate [] 0 (.str "e") = (false, [((.str "e" : JSVal), (0 : Int))]) ∧
    (isDuplicate ((isDuplicate [] 0 (.str "e")).2) 300000 (.str "e")).1 = true ∧
    (isDuplicate ((isDuplicate ((isDuplicate [] 0 (.str "e")).2) 300000
      (.str "e")).2) 300001 (.str "e")).1 = false :=
  ⟨dedupe_contract.1 [] 5 (.str "") (by decide),
    dedupe_contract.2.1 [] 0 (.str "e") (by decide) (by decide),
    (dedupe_contract.2.2.1 [] 0 300000 (.str "e") (by decide) (by decide)
      (by decide)).1,
    dedupe_contract.2.2.2 [] 0 300000 300001 (.str "e") (by decide) (by decide)
      (by decide) (by decide)⟩

/-- C8: the dedupe window invariants. No-early-eviction: a single operation
(call or sweep) at time `t` never evicts an entry whose age at `t` is within
the TTL, and the entry keeps its first-seen timestamp. 2xTTL bound: in any
run from the empty window containing a sweep at time `S` whose subsequent
operations all happen by `S + TTL` — which the periodic `ensurePrune`
interval (period = TTL) guarantees for the segment after the latest sweep —
every entry still recorded at an observation time `T ≤ S + TTL` has age at
most twice the TTL. -/
theorem dedupe_window_ttl_invariant :
    (∀ (m : DedupMap) (op : DedupOp × Int) (kv : JSVal × Int), kv ∈ m →
      op.2 - kv.2 ≤ DEDUPE_TTL_MS → kv ∈ dedupStep m op) ∧
    (∀ (pre post : List (DedupOp × Int)) (S T : Int),
      (∀ op ∈ post, S ≤ op.2) → T ≤ S + DEDUPE_TTL_MS →
      ∀ kv ∈ dedupRun [] (pre ++ (DedupOp.sweep, S) :: post),
        T - kv.2 ≤ 2 * DEDUPE_TTL_MS) := by
  constructor
  · rintro m ⟨o, t⟩ kv hkv hage
    have hkeep : kv ∈ pruneMap t m := mem_pruneMap.mpr ⟨hkv, not_lt.mpr hage⟩
    cases o with
    | sweep => exact hkeep
    | call evtId =>
      show kv ∈ (isDuplicate m t evtId).2
      by_cases h1 : truthy evtId = false
      · unfold isDuplicate
        rw [if_pos h1]
        exact hkv
      · by_cases h2 : ((pruneMap t m).any fun kv => decide (kv.1 = evtId)) = true
        · have : isDuplicate m t evtId = (true, pruneMap t m) := by
            simp only [isDuplicate, if_neg h1]
            rw [if_pos h2]
          rw [this]
          exact hkeep
        · have : isDuplicate m t evtId = (false, pruneMap t m ++ [(evtId, t)]) := by
            simp only [isDuplicate, if_neg h1]
            rw [if_neg h2]
          rw [this]
          exact List.mem_append_left _ hkeep
  · intro pre post S T hpost hT kv hkv
    rw [dedupRun, List.foldl_append, List.foldl_cons] at hkv
    have hlow : ∀ kv2 ∈ dedupStep (List.foldl dedupStep [] pre) (DedupOp.sweep, S),
        S - DEDUPE_TTL_MS ≤ kv2.2 := by
      intro kv2 hkv2
      have hage := pruneMap_age (show kv2 ∈ pruneMap S (List.foldl dedupStep [] pre)
        from hkv2)
      omega
    have hTTLpos : (0 : Int) ≤ DEDUPE_TTL_MS := by decide
    have hlb : S - DEDUPE_TTL_MS ≤ kv.2 :=
      foldl_dedupStep_lower (S - DEDUPE_TTL_MS) post _ hlow
        (fun op hop => by have := hpost op hop; omega) kv hkv
    omega

/-- C8 witness: a two-call-one-sweep run observed just after the sweep
window, and a single-step retention of a fresh entry. -/
theorem dedupe_window_ttl_invariant_witness :
    ((.str "a", (0 : Int)) ∈
      dedupStep [((.str "a" : JSVal), (0 : Int))] (DedupOp.sweep, 1000)) ∧
    (300002 - ((.str "b", (300001 : Int)) : JSVal × Int).2 ≤ 2 * DEDUPE_TTL_MS) :=
  ⟨dedupe_window_ttl_invariant.1 _ (DedupOp.sweep, 1000) _ (by decide) (by decide),
    dedupe_window_ttl_invariant.2 [(DedupOp.call (.str "a"), 0)]
      [(DedupOp.call (.str "b"), 300001)] 300000 300002 (by decide) (by decide)
      (.str "b", 300001) (by decide)⟩

/-- C4 counterexample: `broadcast` can raise, and a failing send is not
isolated: with two connections in the open ready-state where the first one's
`send` throws, the exception propagates out of the `forEach` loop, so the
call raises and the second open connection is never sent to. -/
theorem broadcast_failure_refuted :
    broadcast (some [⟨WS_OPEN, true⟩, ⟨WS_OPEN, false⟩])
      ⟨"dm_received", .undefined, .undefined, .undefined, .undefined,
        .undefined, .undefined⟩ = .error .typeError := by decide

/-- C4 amended: `broadcast` before `start` is a silent no-op; with zero open
connections nothing is sent and nothing is raised; connections not in the
open ready-state are skipped, and provided no open connection's send raises
the call delivers to exactly the open connections; but a send exception is
not caught: it propagates out of `broadcast` and aborts delivery to the
connections after it. -/
theorem broadcast_delivery :
    (∀ p : Payload, broadcast none p = .ok []) ∧
    (∀ (cs : List Conn) (p : Payload), (∀ c ∈ cs, c.readyState ≠ WS_OPEN) →
      broadcast (some cs) p = .ok []) ∧
    (∀ (cs : List Conn) (p : Payload),
      (∀ c ∈ cs, c.readyState = WS_OPEN → c.sendThrows = false) →
      broadcast (some cs) p =
        .ok (cs.filter fun c => decide (c.readyState = WS_OPEN))) ∧
    (∀ (c1 : Conn) (cs : List Conn) (p : Payload), c1.readyState = WS_OPEN →
      c1.sendThrows = true →
      broadcast (some (c1 :: cs)) p = .error .typeError) := by
  have loopNone : ∀ cs : List Conn, (∀ c ∈ cs, c.readyState ≠ WS_OPEN) →
      broadcastLoop cs = .ok [] := by
    intro cs
    induction cs with
    | nil => intro _; rfl
    | cons c rest ih =>
      intro h
      unfold broadcastLoop
      rw [if_neg (h c (List.mem_cons_self c rest))]
      exact ih fun c2 h2 => h c2 (List.mem_cons_of_mem _ h2)
  have loopOk : ∀ cs : List Conn,
      (∀ c ∈ cs, c.readyState = WS_OPEN → c.sendThrows = false) →
      broadcastLoop cs = .ok (cs.filter fun c => decide (c.readyState = WS_OPEN)) := by
    intro cs
    induction cs with
    | nil => intro _; rfl
    | cons c rest ih =>
      intro h
      unfold broadcastLoop
      have hrest := ih fun c2 h2 => h c2 (List.mem_cons_of_mem _ h2)
      by_cases hc : c.readyState = WS_OPEN
      · have hs : c.sendThrows = false := h c (List.mem_cons_self c rest) hc
        rw [if_pos hc, hs, hrest]
        simp [List.filter_cons, hc]
      · rw [if_neg hc, hrest]
        simp [List.filter_cons, hc]
  refine ⟨fun p => rfl, fun cs p h => loopNone cs h, fun cs p h => loopOk cs h, ?_⟩
  intro c1 cs p h1 h2
  show broadcastLoop (c1 :: cs) = .error .typeError
  unfold broadcastLoop
  rw [if_pos h1, h2]
  rfl

/-- C4 amended witness: one closed and one open connection, neither
throwing: exactly the open one is delivered to. -/
theorem broadcast_delivery_witness :
    broadcast (some [⟨3, false⟩, ⟨1, false⟩])
      ⟨"dm_read", .undefined, .undefined, .undefined, .undefined, .undefined,
        .undefined⟩ = .ok [⟨1, false⟩] :=
  broadcast_delivery.2.2.1 [⟨3, false⟩, ⟨1, false⟩] _ (by decide)

/-- C9 counterexample: publishing is not mutation-free: `emitDmReceived`
stamps `receivedAt` on a payload whose `receivedAt` is absent, so the event
object observed by subscribers differs from the constructed one. -/
theorem emit_mutates_received_at :
    emitDmReceived "2025-01-01T00:00:00.000Z"
        ⟨"message", .undefined, .str "U1", .str "hi", .str "D1", .str "1.0",
          .undefined, .undefined⟩ ≠
      ⟨"message", .undefined, .str "U1", .str "hi", .str "D1", .str "1.0",
        .undefined, .undefined⟩ := by decide

/-- C9 amended: publishing on the bus leaves every field except `receivedAt`
unchanged, for both event kinds; `receivedAt` itself is left unchanged when
already truthy, and is set to the current ISO timestamp when falsy (in
particular when absent). -/
theorem emit_preserves_fields :
    (∀ (nowIso : String) (p : SlackDMEvent),
      (emitDmReceived nowIso p).type = p.type ∧
      (emitDmReceived nowIso p).subtype = p.subtype ∧
      (emitDmReceived nowIso p).user = p.user ∧
      (emitDmReceived nowIso p).text = p.text ∧
      (emitDmReceived nowIso p).channel = p.channel ∧
      (emitDmReceived nowIso p).ts = p.ts ∧
      (emitDmReceived nowIso p).envelopeId = p.envelopeId ∧
      (truthy p.receivedAt = true → emitDmReceived nowIso p = p) ∧
      (truthy p.receivedAt = false →
        (emitDmReceived nowIso p).receivedAt = .str nowIso)) ∧
    (∀ (nowIso : String) (p : SlackReadEvent),
      (emitDmRead nowIso p).type = p.type ∧
      (emitDmRead nowIso p).channel = p.channel ∧
      (emitDmRead nowIso p).ts = p.ts ∧
      (emitDmRead nowIso p).envelopeId = p.envelopeId ∧
      (truthy p.receivedAt = true → emitDmRead nowIso p = p) ∧
      (truthy p.receivedAt = false →
        (emitDmRead nowIso p).receivedAt = .str nowIso)) := by
  constructor <;> intro nowIso p <;>
    by_cases h : truthy p.receivedAt = true <;>
      simp [emitDmReceived, emitDmRead, h]

/-- C9 amended witness: an already-stamped DM event passes through unchanged,
and a fresh read event gets the current time stamped into `receivedAt`. -/
theorem emit_preserves_fields_witness :
    emitDmReceived "T2" ⟨"message", .undefined, .undefined, .undefined,
        .undefined, .undefined, .undefined, .str "T1"⟩ =
      ⟨"message", .undefined, .undefined, .undefined, .undefined, .undefined,
        .undefined, .str "T1"⟩ ∧
    (emitDmRead "T3" ⟨"im_marked", .undefined, .undefined, .undefined,
        .undefined⟩).receivedAt = .str "T3" :=
  ⟨(emit_preserves_fields.1 "T2" _).2.2.2.2.2.2.2.1 (by decide),
    (emit_preserves_fields.2 "T3" _).2.2.2.2.2 (by decide)⟩

end SlackSignal
